import Mathlib

/-!
Verification of a minimal interactive type-checking environment
(a Rust program with a `Type` enum, an `Environment` registry and a
line-based command interpreter).

The Rust source is embedded shallowly:
* the Rust enum `Type` becomes the inductive `Ty` (`Type` is a Lean keyword);
* the Rust enum `Error` becomes the inductive `Error`;
* `HashMap<String, V>` becomes an association list with one entry per key,
  `insert` overwriting (`mapInsert`) and `get` as first-match (`lookupStr`);
* every Rust function taking `&mut Environment` returns the new
  `Environment` explicitly; functions that can fail return `Except Error`.
-/

namespace RTC

/-- Rust `enum Type { Int, Float, Bool }` (`type_enum.rs`). -/
inductive Ty where
  | Int
  | Float
  | Bool
deriving DecidableEq, Repr

/-- Rust `enum Error` (`types/type_error.rs`). -/
inductive Error where
  | TypeError
  | UndeclaredFunction
  | UndeclaredVariable
deriving DecidableEq, Repr

/-- Rust `format!("{:?}", t)` for a `Type` value (the `Debug` rendering of a
fieldless variant; `{:#?}` renders identically). -/
def tyDebug : Ty → String
  | Ty.Int => "Int"
  | Ty.Float => "Float"
  | Ty.Bool => "Bool"

/-- Rust `HashMap::get`: first (unique) binding of the key, if any. -/
def lookupStr {α : Type} (k : String) : List (String × α) → Option α
  | [] => none
  | (k2, v) :: rest => if k2 = k then some v else lookupStr k rest

/-- Removal of all bindings of a key (used to model `HashMap::insert`
overwriting the previous binding). -/
def mapErase {α : Type} (k : String) : List (String × α) → List (String × α)
  | [] => []
  | (k2, v) :: rest =>
      if k2 = k then mapErase k rest else (k2, v) :: mapErase k rest

/-- Rust `HashMap::insert`: the new binding replaces any previous binding
of the same key. -/
def mapInsert {α : Type} (k : String) (v : α) (m : List (String × α)) :
    List (String × α) :=
  (k, v) :: mapErase k m

/-- Rust `struct Environment` (`environment/mod.rs`): the registry of
variable types and function signatures `(return_type, parameter_types)`. -/
structure Environment where
  «variables» : List (String × Ty)
  functions : List (String × (Ty × List Ty))
deriving DecidableEq, Repr

/-- Rust `Environment::new()`: empty variables, the five built-in
function signatures inserted in source order. -/
def Environment.new : Environment :=
  { «variables» := []
    functions :=
      mapInsert "and" (Ty.Bool, [Ty.Bool])
        (mapInsert "div" (Ty.Float, [Ty.Int])
          (mapInsert "mul" (Ty.Int, [Ty.Int])
            (mapInsert "sub" (Ty.Int, [Ty.Int])
              (mapInsert "add" (Ty.Int, [Ty.Int]) [])))) }

/-- Rust `Environment::declare_variable`: unconditional upsert. -/
def Environment.declare_variable (env : Environment) (name : String)
    (var_type : Ty) : Environment :=
  { env with «variables» := mapInsert name var_type env.«variables» }

/-- The positional comparison loop of `Environment::call_function`
(`for (i, arg) in args.iter().enumerate() { if *arg != input_types[i] ... }`),
run after the length check has passed. -/
def argsMatch : List Ty → List Ty → Bool
  | [], _ => true
  | a :: as1, p :: ps => a = p && argsMatch as1 ps
  | _ :: _, [] => false

/-- Rust `Environment::call_function`: look the name up, check arity,
check each argument type positionally, return the stored return type. -/
def Environment.call_function (env : Environment) (name : String)
    (args : List Ty) : Except Error Ty :=
  match lookupStr name env.functions with
  | some (return_type, input_types) =>
      if input_types.length ≠ args.length then Except.error Error.TypeError
      else if argsMatch args input_types then Except.ok return_type
      else Except.error Error.TypeError
  | none => Except.error Error.UndeclaredFunction

/-- Rust `Environment::declare_function`: unconditional upsert of the
signature `(output_type, vec![input_type])`. -/
def Environment.declare_function (env : Environment) (name : String)
    (input_type output_type : Ty) : Environment :=
  { env with
      functions := mapInsert name (output_type, [input_type]) env.functions }

/-- Rust `impl FromStr for Type` (`lib.rs`): exact, case-sensitive match. -/
def Ty.fromStr? (s : String) : Option Ty :=
  match s with
  | "Int" => some Ty.Int
  | "Float" => some Ty.Float
  | "Bool" => some Ty.Bool
  | _ => none

/-- One iteration of the argument-conversion loop in `lib.rs`'s
`call_function`: try the token as a `Type` literal, then as a declared
variable, otherwise fail with `UndeclaredVariable`. -/
def resolveArg (env : Environment) (arg : String) : Except Error Ty :=
  match Ty.fromStr? arg with
  | some var_type => Except.ok var_type
  | none =>
      match lookupStr arg env.«variables» with
      | some var_type => Except.ok var_type
      | none => Except.error Error.UndeclaredVariable

/-- The argument-conversion loop of `lib.rs`'s `call_function`: resolve each
token left to right, stopping at the first failure. -/
def resolveArgs (env : Environment) : List String → Except Error (List Ty)
  | [] => Except.ok []
  | a :: rest =>
      match resolveArg env a with
      | Except.ok t =>
          match resolveArgs env rest with
          | Except.ok ts => Except.ok (t :: ts)
          | Except.error e => Except.error e
      | Except.error e => Except.error e

/-- Rust free function `call_function` in `lib.rs` (the `call` command
handler). The pair's second component is the environment after the call;
the handler never mutates it. -/
def call_function (input : List String) (env : Environment) :
    Except Error String × Environment :=
  match input with
  | [] => (Except.error Error.TypeError, env)
  | func_name :: args =>
      match resolveArgs env args with
      | Except.error e => (Except.error e, env)
      | Except.ok converted_args =>
          match env.call_function func_name converted_args with
          | Except.ok return_type =>
              (Except.ok ("Called function " ++ func_name ++
                " with return type " ++ tyDebug return_type), env)
          | Except.error e => (Except.error e, env)

/-- Rust `declare_variable` in `lib.rs` (the `declare_var` command handler):
exactly two tokens, the second matched literally against the type names. -/
def declare_variable (input : List String) (env : Environment) :
    Except Error String × Environment :=
  if input.length ≠ 2 then (Except.error Error.TypeError, env)
  else
    match input with
    | var_name :: tyTok :: _ =>
        match tyTok with
        | "Int" =>
            (Except.ok (var_name ++ " :: " ++ tyDebug Ty.Int),
             env.declare_variable var_name Ty.Int)
        | "Float" =>
            (Except.ok (var_name ++ " :: " ++ tyDebug Ty.Float),
             env.declare_variable var_name Ty.Float)
        | "Bool" =>
            (Except.ok (var_name ++ " :: " ++ tyDebug Ty.Bool),
             env.declare_variable var_name Ty.Bool)
        | _ => (Except.error Error.TypeError, env)
    | _ => (Except.error Error.TypeError, env)

/-- Rust `declare_function` in `lib.rs` (the `declare_func` command
handler): exactly three tokens, both type tokens matched literally, then
the upsert. -/
def declare_function (input : List String) (env : Environment) :
    Except Error String × Environment :=
  if input.length ≠ 3 then (Except.error Error.TypeError, env)
  else
    match input with
    | func_name :: inTok :: outTok :: _ =>
        match Ty.fromStr? inTok with
        | none => (Except.error Error.TypeError, env)
        | some input_type =>
            match Ty.fromStr? outTok with
            | none => (Except.error Error.TypeError, env)
            | some output_type =>
                (Except.ok (func_name ++ " :: " ++ tyDebug input_type ++
                  " -> " ++ tyDebug output_type),
                 env.declare_function func_name input_type output_type)
    | _ => (Except.error Error.TypeError, env)

/-- Rust `show_declaration` in `lib.rs` (the `show` command handler):
variables are consulted before functions; absent from both gives
`UndeclaredVariable`. -/
def show_declaration (input : List String) (env : Environment) :
    Except Error String × Environment :=
  if input.length ≠ 1 then (Except.error Error.TypeError, env)
  else
    match input with
    | name :: _ =>
        match lookupStr name env.«variables» with
        | some var_type =>
            (Except.ok (name ++ " :: " ++ tyDebug var_type), env)
        | none =>
            match lookupStr name env.functions with
            | some (output_type, input_types) =>
                (Except.ok (name ++ " :: " ++
                  String.intercalate " -> " (input_types.map tyDebug) ++
                  " -> " ++ tyDebug output_type), env)
            | none => (Except.error Error.UndeclaredVariable, env)
    | _ => (Except.error Error.TypeError, env)

/-- Accumulator-style model of Rust `str::split_whitespace` on a character
list: maximal runs of non-whitespace characters, in order. -/
def splitWSAux : List Char → List Char → List String
  | [], acc => if acc.isEmpty then [] else [String.mk acc.reverse]
  | c :: cs, acc =>
      if c.isWhitespace then
        if acc.isEmpty then splitWSAux cs []
        else String.mk acc.reverse :: splitWSAux cs []
      else splitWSAux cs (c :: acc)

/-- Rust `input.split_whitespace().collect::<Vec<&str>>()`. -/
def tokenize (s : String) : List String :=
  splitWSAux s.data []

/-- Rust `process_input` in `lib.rs`: tokenize the line, dispatch on the
first token, hand the remaining tokens to the selected handler. -/
def process_input (input : String) (env : Environment) :
    Except Error String × Environment :=
  match tokenize input with
  | [] => (Except.ok "", env)
  | cmd :: rest =>
      match cmd with
      | "declare_var" => declare_variable rest env
      | "declare_func" => declare_function rest env
      | "call" => call_function rest env
      | "show" => show_declaration rest env
      | _ => (Except.error Error.TypeError, env)

/-- A single whitespace-free nonempty token, as produced by whitespace
splitting. -/
def isToken (s : String) : Bool :=
  !s.data.isEmpty && s.data.all (fun c => !c.isWhitespace)

/-- Join words with single spaces; `joinWords ws` tokenizes back to `ws`
when every word is a token. -/
def joinWords : List String → String
  | [] => ""
  | [w] => w
  | w :: ws => w ++ " " ++ joinWords ws

/-- One declaration operation against the registry (the only two mutating
operations of the program). -/
inductive DeclOp where
  | var (name : String) (t : Ty)
  | func (name : String) (tin tout : Ty)

/-- Apply one declaration operation. -/
def applyOp (env : Environment) : DeclOp → Environment
  | DeclOp.var n t => env.declare_variable n t
  | DeclOp.func n a b => env.declare_function n a b

/-- Apply a finite sequence of declaration operations, oldest first. -/
def applyOps (env : Environment) (ops : List DeclOp) : Environment :=
  ops.foldl applyOp env

theorem lookupStr_mapInsert_self {α : Type} (k : String) (v : α)
    (m : List (String × α)) : lookupStr k (mapInsert k v m) = some v := by
  simp [mapInsert, lookupStr]

theorem mem_mapErase {α : Type} {k : String} {p : String × α} :
    ∀ {m : List (String × α)}, p ∈ mapErase k m → p ∈ m := by
  intro m
  induction m with
  | nil => intro h; simp [mapErase] at h
  | cons q rest ih =>
      obtain ⟨k2, v2⟩ := q
      intro h
      by_cases hq : k2 = k
      · simp only [mapErase, if_pos hq] at h
        exact List.mem_cons_of_mem _ (ih h)
      · simp only [mapErase, if_neg hq] at h
        rcases List.mem_cons.mp h with h | h
        · exact h ▸ List.mem_cons_self _ _
        · exact List.mem_cons_of_mem _ (ih h)

theorem lookupStr_mem {α : Type} {k : String} {v : α} :
    ∀ {m : List (String × α)}, lookupStr k m = some v → (k, v) ∈ m := by
  intro m
  induction m with
  | nil => intro h; simp [lookupStr] at h
  | cons q rest ih =>
      obtain ⟨k2, v2⟩ := q
      intro h
      by_cases hq : k2 = k
      · subst hq
        have h2 : v2 = v := by simpa [lookupStr] using h
        subst h2
        exact List.mem_cons_self _ _
      · simp only [lookupStr, if_neg hq] at h
        exact List.mem_cons_of_mem _ (ih h)

theorem argsMatch_iff (as1 ps : List Ty) (h : as1.length = ps.length) :
    argsMatch as1 ps = true ↔
      ∀ i, i < as1.length → as1.getD i Ty.Int = ps.getD i Ty.Int := by
  induction as1 generalizing ps with
  | nil =>
      cases ps with
      | nil => simp [argsMatch]
      | cons p ps => simp at h
  | cons a as1 ih =>
      cases ps with
      | nil => simp at h
      | cons p ps =>
          simp only [List.length_cons, Nat.succ.injEq] at h
          constructor
          · intro hm i hi
            simp only [argsMatch, Bool.and_eq_true, decide_eq_true_eq] at hm
            cases i with
            | zero => simpa using hm.1
            | succ j =>
                have hj : j < as1.length := Nat.lt_of_succ_lt_succ hi
                simpa using (ih ps h).mp hm.2 j hj
          · intro hp
            simp only [argsMatch, Bool.and_eq_true, decide_eq_true_eq]
            refine ⟨by simpa using hp 0 (Nat.succ_pos _), ?_⟩
            exact (ih ps h).mpr fun j hj => by
              simpa using hp (j + 1) (Nat.succ_lt_succ hj)

theorem resolveArg_error_eq {env : Environment} {a : String} {e : Error}
    (h : resolveArg env a = Except.error e) : e = Error.UndeclaredVariable := by
  unfold resolveArg at h
  rcases hf : Ty.fromStr? a with _ | t
  · rw [hf] at h
    rcases hv : lookupStr a env.«variables» with _ | t
    · rw [hv] at h
      cases h
      rfl
    · rw [hv] at h
      cases h
  · rw [hf] at h
    cases h

theorem resolveArgs_error_of_bad {env : Environment} {args : List String}
    (h : ∃ a ∈ args, Ty.fromStr? a = none ∧ lookupStr a env.«variables» = none) :
    resolveArgs env args = Except.error Error.UndeclaredVariable := by
  induction args with
  | nil => rcases h with ⟨a, ha, _⟩; cases ha
  | cons b rest ih =>
      rcases h with ⟨a, ha, hf, hv⟩
      rcases List.mem_cons.mp ha with rfl | hmem
      · simp [resolveArgs, resolveArg, hf, hv]
      · unfold resolveArgs
        rcases hb : resolveArg env b with e | t
        · rw [resolveArg_error_eq hb]
        · rw [ih ⟨a, hmem, hf, hv⟩]

theorem splitWSAux_word (l : List Char) (hl : ∀ c ∈ l, c.isWhitespace = false) :
    ∀ (rest acc : List Char),
      splitWSAux (l ++ rest) acc = splitWSAux rest (l.reverse ++ acc) := by
  induction l with
  | nil => intro rest acc; simp
  | cons c cs ih =>
      intro rest acc
      have hc : c.isWhitespace = false := hl c (List.mem_cons_self _ _)
      have hl2 : ∀ x ∈ cs, x.isWhitespace = false := fun x hx =>
        hl x (List.mem_cons_of_mem _ hx)
      simp only [List.cons_append, splitWSAux, hc, Bool.false_eq_true,
        if_false, List.append_eq]
      rw [ih hl2 rest (c :: acc)]
      simp [List.append_assoc]

theorem splitWSAux_space (rest acc : List Char) :
    splitWSAux (' ' :: rest) acc =
      if acc.isEmpty then splitWSAux rest []
      else String.mk acc.reverse :: splitWSAux rest [] := by
  simp [splitWSAux, Char.isWhitespace]

theorem isToken_data {w : String} (h : isToken w = true) :
    w.data ≠ [] ∧ ∀ c ∈ w.data, c.isWhitespace = false := by
  simp only [isToken, Bool.and_eq_true, Bool.not_eq_true', List.all_eq_true,
    List.isEmpty_eq_false_iff_exists_mem] at h
  rcases h with ⟨⟨x, hx⟩, hall⟩
  exact ⟨fun hnil => by simp [hnil] at hx, fun c hc => by
    simpa using hall c hc⟩

theorem tokenize_joinWords :
    ∀ ws : List String, (∀ w ∈ ws, isToken w = true) →
      tokenize (joinWords ws) = ws := by
  intro ws
  induction ws with
  | nil => intro _; rfl
  | cons w ws ih =>
      intro h
      have hw := isToken_data (h w (List.mem_cons_self _ _))
      have hws : ∀ x ∈ ws, isToken x = true := fun x hx =>
        h x (List.mem_cons_of_mem _ hx)
      cases ws with
      | nil =>
          show splitWSAux (joinWords [w]).data [] = [w]
          have hjw : (joinWords [w]).data = w.data ++ [] := by
            simp [joinWords]
          rw [hjw, splitWSAux_word w.data hw.2 [] [], List.append_nil]
          have hne : w.data.reverse.isEmpty = false := by
            simp
            exact hw.1
          simp only [splitWSAux, hne, Bool.false_eq_true, if_false,
            List.reverse_reverse]
      | cons w2 ws2 =>
          show splitWSAux (joinWords (w :: w2 :: ws2)).data [] = w :: w2 :: ws2
          have hdata : (joinWords (w :: w2 :: ws2)).data =
              w.data ++ (' ' :: (joinWords (w2 :: ws2)).data) := by
            show (w ++ " " ++ joinWords (w2 :: ws2)).data = _
            simp [String.data_append]
          rw [hdata, splitWSAux_word w.data hw.2 _ [], List.append_nil]
          rw [splitWSAux_space]
          have hne : w.data.reverse.isEmpty = false := by
            simp
            exact hw.1
          simp only [hne, Bool.false_eq_true, if_false,
            List.reverse_reverse]
          rw [show splitWSAux (joinWords (w2 :: ws2)).data [] = w2 :: ws2
            from ih hws]

theorem isToken_tyDebug (t : Ty) : isToken (tyDebug t) = true := by
  cases t <;> decide

theorem fromStr_tyDebug (t : Ty) : Ty.fromStr? (tyDebug t) = some t := by
  cases t <;> rfl

/-- C1: `Environment::call_function` fails with `UndeclaredFunction` when
the name is absent from the functions map; otherwise it fails with
`TypeError` when the argument count differs from the stored parameter count
or some argument's type differs from the stored parameter type at the same
position; otherwise it succeeds with the stored return type.  (The
environment is unchanged by construction: the embedded function is pure
and does not produce an environment.) -/
theorem call_function_spec (env : Environment) (name : String) (args : List Ty) :
    (lookupStr name env.functions = none →
      env.call_function name args = Except.error Error.UndeclaredFunction) ∧
    (∀ rt ps, lookupStr name env.functions = some (rt, ps) →
      (ps.length ≠ args.length →
        env.call_function name args = Except.error Error.TypeError) ∧
      (ps.length = args.length →
        (∃ i, i < args.length ∧ args.getD i Ty.Int ≠ ps.getD i Ty.Int) →
        env.call_function name args = Except.error Error.TypeError) ∧
      (ps.length = args.length →
        (∀ i, i < args.length → args.getD i Ty.Int = ps.getD i Ty.Int) →
        env.call_function name args = Except.ok rt)) := by
  constructor
  · intro h
    simp [Environment.call_function, h]
  · intro rt ps h
    refine ⟨fun hlen => ?_, fun hlen hbad => ?_, fun hlen hgood => ?_⟩
    · simp [Environment.call_function, h, hlen]
    · have hm : argsMatch args ps = false := by
        rcases hbad with ⟨i, hi, hne⟩
        by_contra hmt
        have := (argsMatch_iff args ps hlen.symm).mp
          (eq_true_of_ne_false fun hh => hmt hh) i hi
        exact hne this
      simp [Environment.call_function, h, hlen, hm]
    · have hm : argsMatch args ps = true :=
        (argsMatch_iff args ps hlen.symm).mpr hgood
      simp [Environment.call_function, h, hlen, hm]

theorem call_function_spec_witness :
    Environment.new.call_function "add" [Ty.Int] = Except.ok Ty.Int :=
  ((call_function_spec Environment.new "add" [Ty.Int]).2 Ty.Int [Ty.Int]
    (by decide)).2.2 rfl (fun i _ => rfl)

/-- C4: a `call` argument token is resolved first as a `Type` literal
(the variables map is not consulted then), otherwise as a declared
variable's type, otherwise the resolution fails with `UndeclaredVariable`;
the literals "Int", "Float", "Bool" always resolve to the corresponding
type in every environment. -/
theorem resolve_arg_order (env : Environment) (a : String) :
    (∀ t, Ty.fromStr? a = some t → resolveArg env a = Except.ok t) ∧
    (Ty.fromStr? a = none →
      ∀ t, lookupStr a env.«variables» = some t →
        resolveArg env a = Except.ok t) ∧
    (Ty.fromStr? a = none → lookupStr a env.«variables» = none →
      resolveArg env a = Except.error Error.UndeclaredVariable) ∧
    resolveArg env "Int" = Except.ok Ty.Int ∧
    resolveArg env "Float" = Except.ok Ty.Float ∧
    resolveArg env "Bool" = Except.ok Ty.Bool := by
  refine ⟨fun t ht => ?_, fun hf t hv => ?_, fun hf hv => ?_, rfl, rfl, rfl⟩
  · simp [resolveArg, ht]
  · simp [resolveArg, hf, hv]
  · simp [resolveArg, hf, hv]

theorem resolve_arg_order_witness :
    resolveArg Environment.new "ghost" = Except.error Error.UndeclaredVariable :=
  (resolve_arg_order Environment.new "ghost").2.2.1 (by decide) rfl

theorem process_input_declare_var {input : String} (env : Environment)
    {rest : List String} (h : tokenize input = "declare_var" :: rest) :
    process_input input env = declare_variable rest env := by
  unfold process_input
  rw [h]
  rfl

theorem process_input_declare_func {input : String} (env : Environment)
    {rest : List String} (h : tokenize input = "declare_func" :: rest) :
    process_input input env = declare_function rest env := by
  unfold process_input
  rw [h]
  rfl

theorem process_input_call {input : String} (env : Environment)
    {rest : List String} (h : tokenize input = "call" :: rest) :
    process_input input env = call_function rest env := by
  unfold process_input
  rw [h]
  rfl

theorem process_input_show {input : String} (env : Environment)
    {rest : List String} (h : tokenize input = "show" :: rest) :
    process_input input env = show_declaration rest env := by
  unfold process_input
  rw [h]
  rfl

/-- C5: for every single whitespace-free variable name and every type,
`declare_var name T` succeeds rendering `name :: T`, and a subsequent
`show name` succeeds with the same rendering `name :: T`. -/
theorem declare_var_show_roundtrip (env : Environment) (name : String)
    (t : Ty) (h : isToken name = true) :
    (process_input (joinWords ["declare_var", name, tyDebug t]) env).1 =
      Except.ok (name ++ " :: " ++ tyDebug t) ∧
    (process_input (joinWords ["show", name])
        (process_input (joinWords ["declare_var", name, tyDebug t]) env).2).1 =
      Except.ok (name ++ " :: " ++ tyDebug t) := by
  have htoks : tokenize (joinWords ["declare_var", name, tyDebug t]) =
      ["declare_var", name, tyDebug t] := by
    refine tokenize_joinWords _ ?_
    intro w hw
    rcases hw with _ | ⟨_, hw2⟩
    · decide
    · rcases hw2 with _ | ⟨_, hw3⟩
      · exact h
      · rcases hw3 with _ | ⟨_, hw4⟩
        · exact isToken_tyDebug t
        · cases hw4
  have htoks2 : tokenize (joinWords ["show", name]) = ["show", name] := by
    refine tokenize_joinWords _ ?_
    intro w hw
    rcases hw with _ | ⟨_, hw2⟩
    · decide
    · rcases hw2 with _ | ⟨_, hw3⟩
      · exact h
      · cases hw3
  have hd : declare_variable [name, tyDebug t] env =
      (Except.ok (name ++ " :: " ++ tyDebug t),
        env.declare_variable name t) := by
    cases t <;> rfl
  have hs : show_declaration [name] (env.declare_variable name t) =
      (Except.ok (name ++ " :: " ++ tyDebug t),
        env.declare_variable name t) := by
    unfold show_declaration
    simp [Environment.declare_variable, lookupStr_mapInsert_self]
  rw [process_input_declare_var env htoks, hd]
  rw [process_input_show _ htoks2, hs]
  exact ⟨rfl, rfl⟩

theorem declare_var_show_roundtrip_witness :
    isToken "x" = true ∧
    (process_input (joinWords ["declare_var", "x", tyDebug Ty.Bool])
        Environment.new).1 =
      Except.ok ("x" ++ " :: " ++ tyDebug Ty.Bool) :=
  ⟨by decide,
    (declare_var_show_roundtrip Environment.new "x" Ty.Bool (by decide)).1⟩

/-- C3: after `declare_func name T_in T_out` (overwriting any prior
signature for `name`, built-ins included), `call name T_in` succeeds
reporting return type `T_out`, and `call name T_other` fails with
`TypeError` for every `T_other` distinct from `T_in`. -/
theorem declare_func_overwrite_call (env : Environment) (name : String)
    (tin tout tother : Ty) (hname : isToken name = true)
    (hne : tother ≠ tin) :
    (process_input (joinWords ["call", name, tyDebug tin])
        (process_input
          (joinWords ["declare_func", name, tyDebug tin, tyDebug tout])
          env).2).1 =
      Except.ok ("Called function " ++ name ++ " with return type " ++
        tyDebug tout) ∧
    (process_input (joinWords ["call", name, tyDebug tother])
        (process_input
          (joinWords ["declare_func", name, tyDebug tin, tyDebug tout])
          env).2).1 =
      Except.error Error.TypeError := by
  have htoksd : tokenize
      (joinWords ["declare_func", name, tyDebug tin, tyDebug tout]) =
      ["declare_func", name, tyDebug tin, tyDebug tout] := by
    refine tokenize_joinWords _ ?_
    intro w hw
    rcases hw with _ | ⟨_, hw2⟩
    · decide
    · rcases hw2 with _ | ⟨_, hw3⟩
      · exact hname
      · rcases hw3 with _ | ⟨_, hw4⟩
        · exact isToken_tyDebug tin
        · rcases hw4 with _ | ⟨_, hw5⟩
          · exact isToken_tyDebug tout
          · cases hw5
  have htoksc : ∀ x : Ty, tokenize (joinWords ["call", name, tyDebug x]) =
      ["call", name, tyDebug x] := by
    intro x
    refine tokenize_joinWords _ ?_
    intro w hw
    rcases hw with _ | ⟨_, hw2⟩
    · decide
    · rcases hw2 with _ | ⟨_, hw3⟩
      · exact hname
      · rcases hw3 with _ | ⟨_, hw4⟩
        · exact isToken_tyDebug x
        · cases hw4
  have hd : declare_function [name, tyDebug tin, tyDebug tout] env =
      (Except.ok (name ++ " :: " ++ tyDebug tin ++ " -> " ++ tyDebug tout),
        env.declare_function name tin tout) := by
    cases tin <;> cases tout <;> rfl
  have hc : ∀ x : Ty,
      call_function [name, tyDebug x] (env.declare_function name tin tout) =
      ((if x = tin
        then Except.ok ("Called function " ++ name ++ " with return type " ++
          tyDebug tout)
        else Except.error Error.TypeError),
       env.declare_function name tin tout) := by
    intro x
    unfold call_function
    simp only [resolveArgs, resolveArg, fromStr_tyDebug]
    simp only [Environment.call_function, Environment.declare_function,
      lookupStr_mapInsert_self]
    by_cases hx : x = tin
    · simp [argsMatch, hx]
    · simp [argsMatch, hx]
  rw [process_input_declare_func env htoksd, hd]
  rw [process_input_call _ (htoksc tin), process_input_call _ (htoksc tother)]
  rw [hc tin, hc tother]
  simp [hne]

theorem declare_func_overwrite_call_witness :
    isToken "add" = true ∧ Ty.Int ≠ Ty.Bool ∧
    (process_input (joinWords ["call", "add", tyDebug Ty.Bool])
        (process_input
          (joinWords ["declare_func", "add", tyDebug Ty.Bool, tyDebug Ty.Bool])
          Environment.new).2).1 =
      Except.ok ("Called function " ++ "add" ++ " with return type " ++
        tyDebug Ty.Bool) :=
  ⟨by decide, by decide,
    (declare_func_overwrite_call Environment.new "add" Ty.Bool Ty.Bool Ty.Int
      (by decide) (by decide)).1⟩

/-- C7: `show name` renders the variable entry `name :: T` whenever `name`
is in the variables map (in particular when the name is simultaneously a
function); the function rendering is produced only when the name is absent
from the variables map. -/
theorem show_prefers_variable (env : Environment) (name : String)
    (hname : isToken name = true) :
    (∀ t, lookupStr name env.«variables» = some t →
      (process_input (joinWords ["show", name]) env).1 =
        Except.ok (name ++ " :: " ++ tyDebug t)) ∧
    (lookupStr name env.«variables» = none →
      ∀ rt ps, lookupStr name env.functions = some (rt, ps) →
        (process_input (joinWords ["show", name]) env).1 =
          Except.ok (name ++ " :: " ++
            String.intercalate " -> " (ps.map tyDebug) ++ " -> " ++
            tyDebug rt)) := by
  have htoks : tokenize (joinWords ["show", name]) = ["show", name] := by
    refine tokenize_joinWords _ ?_
    intro w hw
    rcases hw with _ | ⟨_, hw2⟩
    · decide
    · rcases hw2 with _ | ⟨_, hw3⟩
      · exact hname
      · cases hw3
  rw [process_input_show env htoks]
  constructor
  · intro t hv
    unfold show_declaration
    simp [hv]
  · intro hv rt ps hf
    unfold show_declaration
    simp [hv, hf]

theorem show_prefers_variable_witness :
    isToken "add" = true ∧
    (process_input (joinWords ["show", "add"])
        ((Environment.new).declare_variable "add" Ty.Float)).1 =
      Except.ok ("add" ++ " :: " ++ tyDebug Ty.Float) :=
  ⟨by decide,
    (show_prefers_variable ((Environment.new).declare_variable "add" Ty.Float)
      "add" (by decide)).1 Ty.Float rfl⟩

/-- C9: a line with no tokens after whitespace splitting is a no-op:
success with the empty string and the environment unchanged. -/
theorem empty_line_noop (env : Environment) (input : String)
    (h : tokenize input = []) :
    process_input input env = (Except.ok "", env) := by
  unfold process_input
  rw [h]

theorem empty_line_noop_witness :
    process_input "   " Environment.new = (Except.ok "", Environment.new) :=
  empty_line_noop Environment.new "   " rfl

theorem call_function_snd (input : List String) (env : Environment) :
    (call_function input env).2 = env := by
  unfold call_function
  split
  · rfl
  · split
    · rfl
    · split <;> rfl

theorem show_declaration_snd (input : List String) (env : Environment) :
    (show_declaration input env).2 = env := by
  unfold show_declaration
  split
  · rfl
  · split
    · split
      · rfl
      · split <;> rfl
    · rfl

theorem declare_variable_cases (input : List String) (env : Environment) :
    (declare_variable input env).2 = env ∨
    ∃ s, (declare_variable input env).1 = Except.ok s := by
  unfold declare_variable
  split
  · exact Or.inl rfl
  · split
    · split
      · exact Or.inr ⟨_, rfl⟩
      · exact Or.inr ⟨_, rfl⟩
      · exact Or.inr ⟨_, rfl⟩
      · exact Or.inl rfl
    · exact Or.inl rfl

theorem declare_function_cases (input : List String) (env : Environment) :
    (declare_function input env).2 = env ∨
    ∃ s, (declare_function input env).1 = Except.ok s := by
  unfold declare_function
  split
  · exact Or.inl rfl
  · split
    · split
      · exact Or.inl rfl
      · split
        · exact Or.inl rfl
        · exact Or.inr ⟨_, rfl⟩
    · exact Or.inl rfl

theorem process_input_other {input : String} (env : Environment)
    {cmd : String} {rest : List String} (h : tokenize input = cmd :: rest)
    (h1 : cmd ≠ "declare_var") (h2 : cmd ≠ "declare_func")
    (h3 : cmd ≠ "call") (h4 : cmd ≠ "show") :
    process_input input env = (Except.error Error.TypeError, env) := by
  unfold process_input
  rw [h]
  split <;> simp_all

/-- C2: whenever `process_input` returns an error, the environment after
the call equals the environment before it (both maps unchanged on every
error path). -/
theorem process_input_error_frame (env : Environment) (input : String)
    (e : Error) (h : (process_input input env).1 = Except.error e) :
    (process_input input env).2 = env := by
  rcases htok : tokenize input with _ | ⟨cmd, rest⟩
  · simp [process_input, htok] at h
  · by_cases h1 : cmd = "declare_var"
    · subst h1
      rw [process_input_declare_var env htok] at h ⊢
      rcases declare_variable_cases rest env with hc | ⟨s, hs⟩
      · exact hc
      · rw [hs] at h
        cases h
    · by_cases h2 : cmd = "declare_func"
      · subst h2
        rw [process_input_declare_func env htok] at h ⊢
        rcases declare_function_cases rest env with hc | ⟨s, hs⟩
        · exact hc
        · rw [hs] at h
          cases h
      · by_cases h3 : cmd = "call"
        · subst h3
          rw [process_input_call env htok]
          exact call_function_snd rest env
        · by_cases h4 : cmd = "show"
          · subst h4
            rw [process_input_show env htok]
            exact show_declaration_snd rest env
          · rw [process_input_other env htok h1 h2 h3 h4]

theorem process_input_error_frame_witness :
    (process_input "nonsense x y" Environment.new).2 = Environment.new :=
  process_input_error_frame Environment.new "nonsense x y" Error.TypeError rfl

/-- C8: a line whose first token is `call` or `show` never changes the
environment, whether it succeeds or fails. -/
theorem call_show_readonly (env : Environment) (input : String)
    (h : (tokenize input).head? = some "call" ∨
      (tokenize input).head? = some "show") :
    (process_input input env).2 = env := by
  rcases htok : tokenize input with _ | ⟨cmd, rest⟩
  · rw [htok] at h
    simp at h
  · rw [htok] at h
    simp only [List.head?_cons, Option.some.injEq] at h
    rcases h with rfl | rfl
    · rw [process_input_call env htok]
      exact call_function_snd rest env
    · rw [process_input_show env htok]
      exact show_declaration_snd rest env

theorem call_show_readonly_witness :
    (process_input "call add Float" Environment.new).2 = Environment.new :=
  call_show_readonly Environment.new "call add Float" (Or.inl rfl)

theorem funcInv_applyOps (env : Environment)
    (henv : ∀ p ∈ env.functions, p.2.2.length = 1) (ops : List DeclOp) :
    ∀ p ∈ (applyOps env ops).functions, p.2.2.length = 1 := by
  induction ops generalizing env with
  | nil => exact henv
  | cons op ops ih =>
      refine ih (applyOp env op) ?_
      rcases op with ⟨n, t⟩ | ⟨n, a, b⟩
      · exact henv
      · intro p hp
        rcases List.mem_cons.mp hp with rfl | hp2
        · rfl
        · exact henv p (mem_mapErase hp2)

/-- C6: in every environment reachable from `Environment::new` by any
finite sequence of variable and function declarations, every functions-map
entry has exactly one parameter, so `call_function` can only succeed on
exactly one argument. -/
theorem arity_one_invariant (ops : List DeclOp) :
    (∀ p ∈ (applyOps Environment.new ops).functions, p.2.2.length = 1) ∧
    (∀ name args rt,
      (applyOps Environment.new ops).call_function name args = Except.ok rt →
      args.length = 1) := by
  have hbase : ∀ p ∈ Environment.new.functions, p.2.2.length = 1 := by
    decide
  have hinv := funcInv_applyOps Environment.new hbase ops
  refine ⟨hinv, fun name args rt h => ?_⟩
  unfold Environment.call_function at h
  rcases hl : lookupStr name (applyOps Environment.new ops).functions
    with _ | ⟨rt2, ps⟩
  · rw [hl] at h
    cases h
  · rw [hl] at h
    simp only [ne_eq] at h
    split at h
    · cases h
    · rename_i hlen
      rw [not_not] at hlen
      rw [← hlen]
      exact hinv (name, (rt2, ps)) (lookupStr_mem hl)

theorem arity_one_invariant_witness : ([Ty.Bool] : List Ty).length = 1 :=
  (arity_one_invariant [DeclOp.func "f" Ty.Bool Ty.Float]).2 "f" [Ty.Bool]
    Ty.Float rfl

/-- C10: in a `call` command the argument tokens are resolved before the
function name is looked up: when the function name is absent from the
functions map and some argument token is neither a type literal nor a
declared variable, the handler fails with `UndeclaredVariable`, not
`UndeclaredFunction`. -/
theorem call_resolves_args_first (env : Environment) (fname : String)
    (args : List String)
    (_hf : lookupStr fname env.functions = none)
    (ha : ∃ a ∈ args, Ty.fromStr? a = none ∧
      lookupStr a env.«variables» = none) :
    (call_function (fname :: args) env).1 =
      Except.error Error.UndeclaredVariable := by
  simp [call_function, resolveArgs_error_of_bad ha]

theorem call_resolves_args_first_witness :
    (call_function ["ghost", "wat"] Environment.new).1 =
      Except.error Error.UndeclaredVariable :=
  call_resolves_args_first Environment.new "ghost" ["wat"] (by decide)
    ⟨"wat", by decide, by decide, rfl⟩

end RTC
